import Mathlib

/-!
Verification development for a recipe-management backend (accounts,
bearer tokens, per-account recipes with many-to-many tags and
ingredients).  The repository ships only its test suite and the admin
configuration; the models, serializers and views they exercise are not
part of the source tree, so every operation below is modelled from the
specification document and carries a doc comment saying so.

Conventions of the embedding:
* database rows are records in lists held by a `Store`;
* primary keys are naturals handed out by `Store.nextId`, so a larger
  id means a later creation;
* the fixed-point decimal price is carried as a natural number of
  cents; password hashing is out of scope, passwords are compared as
  strings;
* HTTP outcomes are the bare status codes the spec names
  (200/201/204/400/404).
-/

namespace RecipeApp

/-- Modelled from the spec: the Account entity of the account store
(`core.models.User`, absent from `src/`): unique email used as the
login identifier, password, first/last name, active/staff/superuser
flags. -/
structure Account where
  id : Nat
  email : String
  password : String
  firstName : String
  lastName : String
  isActive : Bool
  isStaff : Bool
  isSuperuser : Bool
deriving DecidableEq, Repr

/-- Modelled from the spec: the Tag and Ingredient entities
(`core.models.Tag` / `core.models.Ingredient`, absent from `src/`) have
the same shape — a name owned by exactly one account — so a single row
type stands for both; the `Store` keeps them in separate lists. -/
structure NamedRow where
  id : Nat
  userId : Nat
  name : String
deriving DecidableEq, Repr

/-- A Tag row. -/
abbrev Tag := NamedRow

/-- An Ingredient row. -/
abbrev Ingredient := NamedRow

/-- Modelled from the spec: the Recipe entity (`core.models.Recipe`,
absent from `src/`): title, time estimate in minutes, price in cents,
description, external link, owner, and many-to-many link sets to tags
and ingredients (kept as id lists). -/
structure Recipe where
  id : Nat
  userId : Nat
  title : String
  timeMinutes : Nat
  price : Nat
  description : String
  link : String
  tagIds : List Nat
  ingredientIds : List Nat
deriving DecidableEq, Repr

/-- Modelled from the spec: the relational store backing the four
entity tables, with a single fresh-id counter. -/
structure Store where
  accounts : List Account
  recipes : List Recipe
  tags : List Tag
  ingredients : List Ingredient
  nextId : Nat
deriving Repr

/-- Well-formedness of one row table against the fresh-id counter:
ids are pairwise distinct and below the counter. -/
abbrev rowsWF (rows : List NamedRow) (next : Nat) : Prop :=
  (rows.map NamedRow.id).Nodup ∧ ∀ t ∈ rows, t.id < next

/-- Well-formedness of a store: all primary keys are distinct within
their table and below the fresh-id counter. -/
abbrev StoreWF (st : Store) : Prop :=
  rowsWF st.tags st.nextId ∧ rowsWF st.ingredients st.nextId ∧
    (st.recipes.map Recipe.id).Nodup ∧ ∀ r ∈ st.recipes, r.id < st.nextId

/-- Modelled from the spec: email normalization performed by the user
manager (`core.models.UserManager.create_user`, absent from `src/`):
the part after the last `@` (the domain) is lower-cased, everything
before it (the local part) is kept verbatim; a string without `@` is
returned unchanged. -/
def lowerDomain : List Char → List Char
  | [] => []
  | c :: cs =>
    if '@' ∈ cs then c :: lowerDomain cs
    else if c = '@' then c :: cs.map Char.toLower
    else c :: lowerDomain cs

/-- Modelled from the spec: `normalize_email` on strings, via
`lowerDomain` on the underlying character list. -/
def normalizeEmail (s : String) : String := ⟨lowerDomain s.data⟩

/-- Modelled from the spec: the manager-level `create_user`
(`core.models.UserManager.create_user`, absent from `src/`): rejects an
empty email (a `ValueError`, here `none`), otherwise stores a new
active non-staff account under the normalized email and returns the
updated store together with the stored account. -/
def createUser (st : Store) (email password firstName lastName : String) :
    Option (Store × Account) :=
  if email = "" then none
  else
    let a : Account :=
      ⟨st.nextId, normalizeEmail email, password, firstName, lastName, true, false, false⟩
    some ({ st with accounts := st.accounts ++ [a], nextId := st.nextId + 1 }, a)

/-- Modelled from the spec: the account-creation endpoint
(`user` app serializer and view, absent from `src/`): 400 when the
password is shorter than 8 characters, 400 when the (normalized) email
is already registered, 400 when creation itself fails (empty email);
201 with the updated store otherwise.  A failing request leaves the
store unchanged. -/
def createUserApi (st : Store) (email password firstName lastName : String) :
    Nat × Store :=
  if password.length < 8 then (400, st)
  else if st.accounts.any (fun a => a.email == normalizeEmail email) then (400, st)
  else
    match createUser st email password firstName lastName with
    | none => (400, st)
    | some (st', _) => (201, st')

/-- Modelled from the spec: the token endpoint (`user` app
`AuthTokenSerializer` view, absent from `src/`): a blank password is a
validation error (400, no token); otherwise the credentials must match
an active stored account, yielding 200 and an opaque token (here the
account id), else 400 with no token. -/
def createToken (st : Store) (email password : String) : Nat × Option Nat :=
  if password = "" then (400, none)
  else
    match st.accounts.find?
        (fun a => a.email == email && a.password == password && a.isActive) with
    | some a => (200, some a.id)
    | none => (400, none)

/-- Result of one get-or-create step: the updated row table, the
updated fresh-id counter, and the id of the reused or created row. -/
structure GocOne where
  rows : List NamedRow
  next : Nat
  rid : Nat
deriving Repr

/-- Result of get-or-create over a list of names: the updated row
table, the updated fresh-id counter, and the ids in payload order. -/
structure GocMany where
  rows : List NamedRow
  next : Nat
  ids : List Nat
deriving Repr

/-- Modelled from the spec: one step of the serializer's get-or-create
(`recipe.serializers`, absent from `src/`): reuse the first row with
the requesting account and this name, otherwise insert a fresh row for
that account. -/
def getOrCreateRow (rows : List NamedRow) (next uid : Nat) (name : String) : GocOne :=
  match rows.find? (fun t => t.userId == uid && t.name == name) with
  | some t => ⟨rows, next, t.id⟩
  | none => ⟨rows ++ [⟨next, uid, name⟩], next + 1, next⟩

/-- Modelled from the spec: get-or-create over the whole supplied name
list, threading the table and the counter left to right. -/
def getOrCreateRows (rows : List NamedRow) (next uid : Nat) :
    List String → GocMany
  | [] => ⟨rows, next, []⟩
  | n :: ns =>
    let g1 := getOrCreateRow rows next uid n
    let g2 := getOrCreateRows g1.rows g1.next uid ns
    ⟨g2.rows, g2.next, g1.rid :: g2.ids⟩

/-- Resolve an optional tags/ingredients payload: `none` keeps the
previous link set, a list of names replaces it by the get-or-create
ids (deduplicated, as the many-to-many add is idempotent). -/
def setLinks (rows : List NamedRow) (next uid : Nat) (old : List Nat) :
    Option (List String) → GocMany
  | none => ⟨rows, next, old⟩
  | some names =>
    let g := getOrCreateRows rows next uid names
    ⟨g.rows, g.next, g.ids.dedup⟩

/-- Wire payload of a recipe create: required scalar fields plus
optional nested tag/ingredient name lists. -/
structure RecipeInput where
  title : String
  timeMinutes : Nat
  price : Nat
  description : String
  link : String
  tags : List String
  ingredients : List String
deriving Repr

/-- Wire payload of a partial (PATCH) recipe update: every field
optional; the owner field is accepted on the wire but read-only in the
serializer, so the operation never consults it. -/
structure RecipePatch where
  title : Option String
  timeMinutes : Option Nat
  price : Option Nat
  description : Option String
  link : Option String
  tags : Option (List String)
  ingredients : Option (List String)
  user : Option Nat
deriving Repr

/-- Modelled from the spec: the recipe list endpoint (`recipe` app
viewset, absent from `src/`): the queryset is filtered to the
authenticated account and ordered by descending id, i.e.
most-recently-created first. -/
def recipeListFor (st : Store) (uid : Nat) : List Recipe :=
  (st.recipes.filter (fun r => r.userId == uid)).insertionSort
    (fun a b => b.id ≤ a.id)

/-- Modelled from the spec: recipe creation (`recipe` app serializer,
absent from `src/`): get-or-create each supplied tag and ingredient
name for the requesting account, then insert the recipe owned by that
account with the resolved link sets; returns 201 and the new id. -/
def recipeCreate (st : Store) (uid : Nat) (p : RecipeInput) : Nat × Store × Nat :=
  let gt := getOrCreateRows st.tags st.nextId uid p.tags
  let gi := getOrCreateRows st.ingredients gt.next uid p.ingredients
  let rid := gi.next
  let r : Recipe :=
    ⟨rid, uid, p.title, p.timeMinutes, p.price, p.description, p.link,
      gt.ids.dedup, gi.ids.dedup⟩
  (201, { st with
            tags := gt.rows,
            ingredients := gi.rows,
            recipes := st.recipes ++ [r],
            nextId := rid + 1 }, rid)

/-- Modelled from the spec: partial recipe update (`recipe` app
serializer and viewset, absent from `src/`).  The object is looked up
in the account-scoped queryset, so a recipe of another account yields
404 with the store untouched.  Supplied scalar fields replace the old
values, unsupplied ones are kept; a supplied tags/ingredients list
replaces the whole link set through get-or-create; the owner field of
the payload is read-only and never consulted. -/
def recipePatch (st : Store) (uid rid : Nat) (p : RecipePatch) : Nat × Store :=
  match st.recipes.find? (fun x => x.id == rid && x.userId == uid) with
  | none => (404, st)
  | some r =>
    let gt := setLinks st.tags st.nextId uid r.tagIds p.tags
    let gi := setLinks st.ingredients gt.next uid r.ingredientIds p.ingredients
    let r2 : Recipe :=
      { r with
          title := p.title.getD r.title,
          timeMinutes := p.timeMinutes.getD r.timeMinutes,
          price := p.price.getD r.price,
          description := p.description.getD r.description,
          link := p.link.getD r.link,
          tagIds := gt.ids,
          ingredientIds := gi.ids }
    (200, { st with
              tags := gt.rows,
              ingredients := gi.rows,
              nextId := gi.next,
              recipes := st.recipes.map (fun x => if x.id = r.id then r2 else x) })

/-- Modelled from the spec: recipe deletion (`recipe` app viewset,
absent from `src/`): the lookup is account-scoped, so another
account's recipe yields 404 and no change; an owned recipe is removed
and 204 returned. -/
def recipeDelete (st : Store) (uid rid : Nat) : Nat × Store :=
  match st.recipes.find? (fun x => x.id == rid && x.userId == uid) with
  | none => (404, st)
  | some r =>
    (204, { st with recipes := st.recipes.filter (fun x => x.id != r.id) })

/-- Modelled from the spec: the unfiltered tag/ingredient list body
(`recipe` app viewset, absent from `src/`): the account's own rows
ordered by name descending. -/
def ownedRowsByNameDesc (rows : List NamedRow) (uid : Nat) : List NamedRow :=
  (rows.filter (fun t => t.userId == uid)).insertionSort
    (fun a b => b.name ≤ a.name)

/-- Modelled from the spec: the tag list endpoint without filter. -/
def tagList (st : Store) (uid : Nat) : List Tag :=
  ownedRowsByNameDesc st.tags uid

/-- Modelled from the spec: the ingredient list endpoint without
filter. -/
def ingredientList (st : Store) (uid : Nat) : List Ingredient :=
  ownedRowsByNameDesc st.ingredients uid

/-- Modelled from the spec: the `assigned_only=1` filter (`recipe` app
viewset, absent from `src/`): the relational join of recipes with the
account's rows attached to them, de-duplicated as the SQL `distinct`
does. -/
def assignedRows (recipes : List Recipe) (rows : List NamedRow)
    (pick : Recipe → List Nat) (uid : Nat) : List NamedRow :=
  (recipes.flatMap
    (fun r => rows.filter (fun t => t.userId == uid && (pick r).contains t.id))).dedup

/-- Modelled from the spec: the tag list endpoint with
`assigned_only=1`. -/
def tagListAssigned (st : Store) (uid : Nat) : List Tag :=
  assignedRows st.recipes st.tags Recipe.tagIds uid

/-- Modelled from the spec: the ingredient list endpoint with
`assigned_only=1`. -/
def ingredientListAssigned (st : Store) (uid : Nat) : List Ingredient :=
  assignedRows st.recipes st.ingredients Recipe.ingredientIds uid

/-- Number of rows of one account with one name — the quantity the
get-or-create claims speak about. -/
def countName (rows : List NamedRow) (uid : Nat) (name : String) : Nat :=
  (rows.filter (fun t => t.userId == uid && t.name == name)).length

/-! Helper lemmas about `countName` and the get-or-create helpers. -/

theorem countName_append (a b : List NamedRow) (uid : Nat) (name : String) :
    countName (a ++ b) uid name = countName a uid name + countName b uid name := by
  simp [countName, List.filter_append]

theorem countName_pos_of_mem {rows : List NamedRow} {t : NamedRow} (ht : t ∈ rows)
    (hu : t.userId = uid) (hn : t.name = name) : countName rows uid name ≠ 0 := by
  have : t ∈ rows.filter (fun t => t.userId == uid && t.name == name) := by
    simp [List.mem_filter, ht, hu, hn]
  intro h
  rw [countName, List.length_eq_zero] at h
  simp [h] at this

theorem countName_eq_zero_of_find?_none {rows : List NamedRow} {uid : Nat} {name : String}
    (h : rows.find? (fun t => t.userId == uid && t.name == name) = none) :
    countName rows uid name = 0 := by
  rw [List.find?_eq_none] at h
  rw [countName, List.length_eq_zero, List.filter_eq_nil_iff]
  exact h

theorem getOrCreateRow_mem_mono (rows : List NamedRow) (next uid : Nat) (name : String)
    {t : NamedRow} (h : t ∈ rows) : t ∈ (getOrCreateRow rows next uid name).rows := by
  cases hf : rows.find? (fun t => t.userId == uid && t.name == name) with
  | some u => simp [getOrCreateRow, hf, h]
  | none => simp [getOrCreateRow, hf, h]

theorem getOrCreateRow_next_mono (rows : List NamedRow) (next uid : Nat) (name : String) :
    next ≤ (getOrCreateRow rows next uid name).next := by
  cases hf : rows.find? (fun t => t.userId == uid && t.name == name) with
  | some u => simp [getOrCreateRow, hf]
  | none => simp [getOrCreateRow, hf]

theorem getOrCreateRow_found (rows : List NamedRow) (next uid : Nat) (name : String) :
    ∃ t ∈ (getOrCreateRow rows next uid name).rows,
      t.userId = uid ∧ t.name = name ∧ t.id = (getOrCreateRow rows next uid name).rid := by
  cases hf : rows.find? (fun t => t.userId == uid && t.name == name) with
  | some u =>
    have hm := List.mem_of_find?_eq_some hf
    have hp := List.find?_some hf
    simp only [Bool.and_eq_true, beq_iff_eq] at hp
    exact ⟨u, by simp [getOrCreateRow, hf, hm], hp.1, hp.2, by simp [getOrCreateRow, hf]⟩
  | none =>
    refine ⟨⟨next, uid, name⟩, ?_, rfl, rfl, ?_⟩ <;> simp [getOrCreateRow, hf]

theorem countName_getOrCreateRow (rows : List NamedRow) (next uid : Nat) (n : String)
    (uid' : Nat) (name' : String) :
    countName (getOrCreateRow rows next uid n).rows uid' name' =
      if uid' = uid ∧ name' = n ∧ countName rows uid n = 0 then 1
      else countName rows uid' name' := by
  cases hf : rows.find? (fun t => t.userId == uid && t.name == n) with
  | some u =>
    have hm := List.mem_of_find?_eq_some hf
    have hp := List.find?_some hf
    simp only [Bool.and_eq_true, beq_iff_eq] at hp
    have hnz := countName_pos_of_mem hm hp.1 hp.2
    rw [if_neg (by rintro ⟨_, _, hc⟩; exact hnz hc)]
    simp [getOrCreateRow, hf]
  | none =>
    have hz := countName_eq_zero_of_find?_none hf
    have hrows : (getOrCreateRow rows next uid n).rows = rows ++ [⟨next, uid, n⟩] := by
      simp [getOrCreateRow, hf]
    rw [hrows, countName_append]
    by_cases hc : uid' = uid ∧ name' = n
    · obtain ⟨h1, h2⟩ := hc
      subst h1; subst h2
      rw [if_pos ⟨rfl, rfl, hz⟩, hz]
      simp [countName, List.filter]
    · rw [if_neg (by rintro ⟨h1, h2, _⟩; exact hc ⟨h1, h2⟩)]
      have : countName [⟨next, uid, n⟩] uid' name' = 0 := by
        simp only [countName, List.length_eq_zero, List.filter_eq_nil_iff]
        intro t ht
        simp only [List.mem_singleton] at ht
        subst ht
        simp only [Bool.and_eq_true, beq_iff_eq]
        rintro ⟨h1, h2⟩
        exact hc ⟨h1.symm, h2.symm⟩
      omega

theorem getOrCreateRows_mem_mono (rows : List NamedRow) (next uid : Nat)
    (ns : List String) {t : NamedRow} (h : t ∈ rows) :
    t ∈ (getOrCreateRows rows next uid ns).rows := by
  induction ns generalizing rows next with
  | nil => simpa [getOrCreateRows] using h
  | cons n ns ih =>
    simp only [getOrCreateRows]
    exact ih _ _ (getOrCreateRow_mem_mono rows next uid n h)

theorem getOrCreateRows_next_mono (rows : List NamedRow) (next uid : Nat)
    (ns : List String) : next ≤ (getOrCreateRows rows next uid ns).next := by
  induction ns generalizing rows next with
  | nil => simp [getOrCreateRows]
  | cons n ns ih =>
    simp only [getOrCreateRows]
    exact le_trans (getOrCreateRow_next_mono rows next uid n) (ih _ _)

theorem countName_getOrCreateRows (rows : List NamedRow) (next uid : Nat)
    (ns : List String) (uid' : Nat) (name' : String) :
    countName (getOrCreateRows rows next uid ns).rows uid' name' =
      if uid' = uid ∧ name' ∈ ns ∧ countName rows uid' name' = 0 then 1
      else countName rows uid' name' := by
  induction ns generalizing rows next with
  | nil => simp [getOrCreateRows]
  | cons n ns ih =>
    simp only [getOrCreateRows]
    rw [ih, countName_getOrCreateRow]
    by_cases hu : uid' = uid
    · subst hu
      by_cases hn : name' = n
      · subst hn
        by_cases hz : countName rows uid' name' = 0
        · simp [hz]
        · simp [hz, List.mem_cons]
      · by_cases hm : name' ∈ ns
        · simp [hn, hm]
        · simp [hn, hm]
    · simp [hu]

theorem getOrCreateRows_attach (rows : List NamedRow) (next uid : Nat)
    (ns : List String) {name : String} (h : name ∈ ns) :
    ∃ t ∈ (getOrCreateRows rows next uid ns).rows,
      t.userId = uid ∧ t.name = name ∧ t.id ∈ (getOrCreateRows rows next uid ns).ids := by
  induction ns generalizing rows next with
  | nil => cases h
  | cons n ns ih =>
    rcases List.mem_cons.mp h with rfl | hmem
    · obtain ⟨t, ht, h1, h2, h3⟩ := getOrCreateRow_found rows next uid name
      refine ⟨t, ?_, h1, h2, ?_⟩
      · exact getOrCreateRows_mem_mono _ _ _ ns ht
      · simp [getOrCreateRows, h3]
    · obtain ⟨t, ht, h1, h2, h3⟩ :=
        ih (getOrCreateRow rows next uid n).rows
           (getOrCreateRow rows next uid n).next hmem
      exact ⟨t, by simpa [getOrCreateRows] using ht, h1, h2,
        by simp [getOrCreateRows, h3]⟩

theorem getOrCreateRows_ids (rows : List NamedRow) (next uid : Nat)
    (ns : List String) {i : Nat} (h : i ∈ (getOrCreateRows rows next uid ns).ids) :
    ∃ t ∈ (getOrCreateRows rows next uid ns).rows,
      t.id = i ∧ t.userId = uid ∧ t.name ∈ ns := by
  induction ns generalizing rows next with
  | nil => simp [getOrCreateRows] at h
  | cons n ns ih =>
    simp only [getOrCreateRows, List.mem_cons] at h
    rcases h with rfl | hmem
    · obtain ⟨t, ht, h1, h2, h3⟩ := getOrCreateRow_found rows next uid n
      refine ⟨t, ?_, h3, h1, by simp [h2]⟩
      simp only [getOrCreateRows]
      exact getOrCreateRows_mem_mono _ _ _ ns ht
    · obtain ⟨t, ht, h1, h2, h3⟩ :=
        ih (getOrCreateRow rows next uid n).rows
           (getOrCreateRow rows next uid n).next hmem
      exact ⟨t, by simpa [getOrCreateRows] using ht, h1, h2, by simp [h3]⟩

theorem getOrCreateRow_wf {rows : List NamedRow} {next : Nat} (uid : Nat) (name : String)
    (h : rowsWF rows next) :
    rowsWF (getOrCreateRow rows next uid name).rows (getOrCreateRow rows next uid name).next := by
  obtain ⟨hnd, hbd⟩ := h
  cases hf : rows.find? (fun t => t.userId == uid && t.name == name) with
  | some u => exact ⟨by simpa [getOrCreateRow, hf] using hnd,
      by simpa [getOrCreateRow, hf] using hbd⟩
  | none =>
    constructor
    · simp only [getOrCreateRow, hf, List.map_append, List.map_cons, List.map_nil]
      rw [List.nodup_append]
      refine ⟨hnd, List.nodup_singleton _, ?_⟩
      intro a ha hb
      simp only [List.mem_singleton] at hb
      subst hb
      simp only [List.mem_map] at ha
      obtain ⟨t, ht, hid⟩ := ha
      exact absurd hid (Nat.ne_of_lt (hbd t ht))
    · intro t ht
      simp only [getOrCreateRow, hf, List.mem_append, List.mem_singleton] at ht ⊢
      rcases ht with ht | rfl
      · exact Nat.lt_succ_of_lt (hbd t ht)
      · exact Nat.lt_succ_self _

theorem getOrCreateRows_wf {rows : List NamedRow} {next : Nat} (uid : Nat)
    (ns : List String) (h : rowsWF rows next) :
    rowsWF (getOrCreateRows rows next uid ns).rows (getOrCreateRows rows next uid ns).next := by
  induction ns generalizing rows next with
  | nil => simpa [getOrCreateRows] using h
  | cons n ns ih =>
    simp only [getOrCreateRows]
    exact ih (getOrCreateRow_wf uid n h)

theorem rowsWF_mono {rows : List NamedRow} {m n : Nat} (h : rowsWF rows m) (hmn : m ≤ n) :
    rowsWF rows n :=
  ⟨h.1, fun t ht => Nat.lt_of_lt_of_le (h.2 t ht) hmn⟩

theorem setLinks_next_mono (rows : List NamedRow) (next uid : Nat) (old : List Nat)
    (o : Option (List String)) : next ≤ (setLinks rows next uid old o).next := by
  cases o with
  | none => simp [setLinks]
  | some names => simpa [setLinks] using getOrCreateRows_next_mono rows next uid names

/-! Instances letting `List.insertionSort` produce sorted output for
the descending orders the list endpoints use. -/

instance : IsTotal NamedRow (fun a b => b.name ≤ a.name) :=
  ⟨fun a b => le_total b.name a.name⟩

instance : IsTrans NamedRow (fun a b => b.name ≤ a.name) :=
  ⟨fun _ _ _ h1 h2 => le_trans h2 h1⟩

instance : IsTotal Recipe (fun a b => b.id ≤ a.id) :=
  ⟨fun a b => Nat.le_total b.id a.id⟩

instance : IsTrans Recipe (fun a b => b.id ≤ a.id) :=
  ⟨fun _ _ _ h1 h2 => Nat.le_trans h2 h1⟩

theorem mem_ownedRowsByNameDesc (rows : List NamedRow) (uid : Nat) (t : NamedRow) :
    t ∈ ownedRowsByNameDesc rows uid ↔ t ∈ rows ∧ t.userId = uid := by
  rw [ownedRowsByNameDesc, (List.perm_insertionSort _ _).mem_iff, List.mem_filter]
  simp

theorem sorted_ownedRowsByNameDesc (rows : List NamedRow) (uid : Nat) :
    List.Sorted (fun a b => b.name ≤ a.name) (ownedRowsByNameDesc rows uid) :=
  List.sorted_insertionSort _ _

theorem mem_assignedRows (recipes : List Recipe) (rows : List NamedRow)
    (pick : Recipe → List Nat) (uid : Nat) (t : NamedRow) :
    t ∈ assignedRows recipes rows pick uid ↔
      t ∈ rows ∧ t.userId = uid ∧ ∃ r ∈ recipes, t.id ∈ pick r := by
  simp only [assignedRows, List.mem_dedup, List.mem_flatMap, List.mem_filter,
    Bool.and_eq_true, beq_iff_eq, List.contains, List.elem_eq_mem, decide_eq_true_eq]
  tauto

/-! Sample data used by the witness theorems. -/

/-- A sample active account with id 1. -/
def acct1 : Account :=
  ⟨1, "test@example.com", "testpassword123", "John", "Doe", true, false, false⟩

/-- A second sample active account with id 2. -/
def acct2 : Account :=
  ⟨2, "test2@example.com", "testpassword123", "Jane", "Doe", true, false, false⟩

/-- A recipe owned by account 1, carrying tag 5. -/
def recipeA : Recipe :=
  ⟨3, 1, "Sample recipe title", 22, 525, "Sample Description",
    "http://example.com/recipe.pdf", [5], []⟩

/-- A recipe owned by account 2. -/
def recipeB : Recipe := ⟨4, 2, "Other recipe", 10, 250, "", "", [], []⟩

/-- A tag of account 1. -/
def tagTaco : Tag := ⟨5, 1, "Taco"⟩

/-- An unattached ingredient of account 1. -/
def ingLemon : Ingredient := ⟨6, 1, "Lemon"⟩

/-- A sample store holding the rows above. -/
def sampleStore : Store := ⟨[acct1, acct2], [recipeA, recipeB], [tagTaco], [ingLemon], 7⟩

/-- A sample recipe-creation payload naming one existing and one new
tag, and one existing ingredient. -/
def sampleInput : RecipeInput :=
  ⟨"Street Taco", 30, 350, "", "", ["Taco", "Street Food"], ["Lemon"]⟩

/-! The claims. -/

/-- C1: for every authenticated account, the recipe list returns
exactly the recipes whose owner is the requesting account, ordered by
descending id; ids are handed out by the monotone fresh-id counter, so
under store well-formedness every recipe created next receives an id
larger than all existing ones — descending id is most-recently-created
first. -/
theorem recipe_list_owner_scoped_desc (st : Store) (uid : Nat) (p : RecipeInput)
    (hwf : StoreWF st) :
    (∀ r, r ∈ recipeListFor st uid ↔ r ∈ st.recipes ∧ r.userId = uid) ∧
    List.Sorted (fun a b => b.id ≤ a.id) (recipeListFor st uid) ∧
    ∀ r ∈ st.recipes, r.id < (recipeCreate st uid p).2.2 := by
  refine ⟨fun r => ?_, List.sorted_insertionSort _ _, fun r hr => ?_⟩
  · rw [recipeListFor, (List.perm_insertionSort _ _).mem_iff, List.mem_filter]
    simp
  · have h1 := getOrCreateRows_next_mono st.tags st.nextId uid p.tags
    have h2 := getOrCreateRows_next_mono st.ingredients
      (getOrCreateRows st.tags st.nextId uid p.tags).next uid p.ingredients
    have h3 := hwf.2.2.2 r hr
    simp only [recipeCreate]
    omega

/-- Witness for C1 at the sample store and account 1. -/
theorem recipe_list_owner_scoped_desc_w :
    StoreWF sampleStore ∧
    ((∀ r, r ∈ recipeListFor sampleStore 1 ↔ r ∈ sampleStore.recipes ∧ r.userId = 1) ∧
      List.Sorted (fun a b => b.id ≤ a.id) (recipeListFor sampleStore 1) ∧
      ∀ r ∈ sampleStore.recipes, r.id < (recipeCreate sampleStore 1 sampleInput).2.2) :=
  ⟨by decide, recipe_list_owner_scoped_desc sampleStore 1 sampleInput (by decide)⟩

/-- C9: with `assigned_only=1` the tag and ingredient lists hold
exactly the account's rows attached to at least one recipe, each
exactly once (the result is duplicate-free). -/
theorem assigned_only_exact_and_unique (st : Store) (uid : Nat) :
    ((∀ t, t ∈ tagListAssigned st uid ↔
        t ∈ st.tags ∧ t.userId = uid ∧ ∃ r ∈ st.recipes, t.id ∈ r.tagIds) ∧
      (tagListAssigned st uid).Nodup) ∧
    ((∀ t, t ∈ ingredientListAssigned st uid ↔
        t ∈ st.ingredients ∧ t.userId = uid ∧ ∃ r ∈ st.recipes, t.id ∈ r.ingredientIds) ∧
      (ingredientListAssigned st uid).Nodup) :=
  ⟨⟨fun t => mem_assignedRows st.recipes st.tags Recipe.tagIds uid t,
      List.nodup_dedup _⟩,
    ⟨fun t => mem_assignedRows st.recipes st.ingredients Recipe.ingredientIds uid t,
      List.nodup_dedup _⟩⟩

/-- C10: the unfiltered tag and ingredient lists hold exactly the
account's rows, sorted by name in descending lexicographic order. -/
theorem unfiltered_lists_name_desc (st : Store) (uid : Nat) :
    ((∀ t, t ∈ tagList st uid ↔ t ∈ st.tags ∧ t.userId = uid) ∧
      List.Sorted (fun a b => b.name ≤ a.name) (tagList st uid)) ∧
    ((∀ t, t ∈ ingredientList st uid ↔ t ∈ st.ingredients ∧ t.userId = uid) ∧
      List.Sorted (fun a b => b.name ≤ a.name) (ingredientList st uid)) :=
  ⟨⟨fun t => mem_ownedRowsByNameDesc st.tags uid t,
      sorted_ownedRowsByNameDesc st.tags uid⟩,
    ⟨fun t => mem_ownedRowsByNameDesc st.ingredients uid t,
      sorted_ownedRowsByNameDesc st.ingredients uid⟩⟩

theorem lowerDomain_append (l d : List Char) (hd : '@' ∉ d) :
    lowerDomain (l ++ '@' :: d) = l ++ '@' :: d.map Char.toLower := by
  induction l with
  | nil => simp [lowerDomain, hd]
  | cons c l ih =>
    have hmem : '@' ∈ l ++ '@' :: d := by simp
    simp [lowerDomain, hmem, ih]

/-- C6: for every valid signup payload, the stored account email is
the input with the part after the last `@` lower-cased and the local
part kept verbatim.  The email is given split as local part `l` and
domain `d` (the characters after the last `@`, hence `@`-free). -/
theorem signup_email_domain_lowercased (st : Store) (l d : List Char)
    (password firstName lastName : String) (hd : '@' ∉ d) :
    ∃ res, createUser st ⟨l ++ '@' :: d⟩ password firstName lastName = some res ∧
      res.2.email = ⟨l ++ '@' :: d.map Char.toLower⟩ ∧ res.2 ∈ res.1.accounts := by
  have hne : (⟨l ++ '@' :: d⟩ : String) ≠ "" := by
    intro h
    rw [String.ext_iff] at h
    simp at h
  refine ⟨({ st with
      accounts := st.accounts ++
        [⟨st.nextId, normalizeEmail ⟨l ++ '@' :: d⟩, password, firstName, lastName,
          true, false, false⟩],
      nextId := st.nextId + 1 },
    ⟨st.nextId, normalizeEmail ⟨l ++ '@' :: d⟩, password, firstName, lastName,
      true, false, false⟩), ?_, ?_, ?_⟩
  · rw [createUser, if_neg hne]
  · show normalizeEmail _ = _
    rw [normalizeEmail]
    show (⟨lowerDomain (l ++ '@' :: d)⟩ : String) = _
    rw [lowerDomain_append l d hd]
  · simp

/-- Witness for C6 on the emails the model tests use:
`test1@EXAMPLE.com` is stored as `test1@example.com`. -/
theorem signup_email_domain_lowercased_w :
    ('@' ∉ "EXAMPLE.com".toList) ∧
    (∃ res, createUser sampleStore ⟨"test1".toList ++ '@' :: "EXAMPLE.com".toList⟩
        "sample123" "First" "Last" = some res ∧
      res.2.email = ⟨"test1".toList ++ '@' :: ("EXAMPLE.com".toList).map Char.toLower⟩ ∧
      res.2 ∈ res.1.accounts) :=
  ⟨by decide,
    signup_email_domain_lowercased sampleStore ("test1".toList) ("EXAMPLE.com".toList)
      "sample123" "First" "Last" (by decide)⟩

/-- C7: account creation fails on an empty email; the signup endpoint
answers 400 and leaves the store unchanged when the email is already
registered, and likewise when the password is shorter than 8
characters. -/
theorem signup_validation_errors (st : Store) (email password firstName lastName : String) :
    createUser st "" password firstName lastName = none ∧
    ((∃ a ∈ st.accounts, a.email = normalizeEmail email) →
      createUserApi st email password firstName lastName = (400, st)) ∧
    (password.length < 8 →
      createUserApi st email password firstName lastName = (400, st)) := by
  refine ⟨by simp [createUser], fun hdup => ?_, fun hshort => by simp [createUserApi, hshort]⟩
  have hany : st.accounts.any (fun a => a.email == normalizeEmail email) = true := by
    obtain ⟨a, ha, he⟩ := hdup
    simp only [List.any_eq_true, beq_iff_eq]
    exact ⟨a, ha, he⟩
  by_cases hp : password.length < 8
  · simp [createUserApi, hp]
  · simp [createUserApi, hp, hany]

/-- Witness for C7 at the sample store: re-registering
`test@example.com` and signing up with the 5-character password
`short` both answer 400 without changing the store. -/
theorem signup_validation_errors_w :
    (∃ a ∈ sampleStore.accounts, a.email = normalizeEmail "test@example.com") ∧
    ("short".length < 8) ∧
    createUser sampleStore "" "testpass123" "John" "Doe" = none ∧
    createUserApi sampleStore "test@example.com" "testpass123" "John" "Doe" =
      (400, sampleStore) ∧
    createUserApi sampleStore "test@example.com" "short" "John" "Doe" =
      (400, sampleStore) :=
  ⟨by decide, by decide,
    (signup_validation_errors sampleStore "test@example.com" "testpass123" "John" "Doe").1,
    (signup_validation_errors sampleStore "test@example.com" "testpass123" "John" "Doe").2.1
      (by decide),
    (signup_validation_errors sampleStore "test@example.com" "short" "John" "Doe").2.2
      (by decide)⟩

/-- C8: the token endpoint answers 200 with a token when the supplied
email and password match a stored active account, 400 without a token
when the password is wrong for the email, and 400 without a token when
the password is blank. -/
theorem token_endpoint_matches (st : Store) (email password : String) :
    ((∃ a ∈ st.accounts, a.email = email ∧ a.password = password ∧ a.isActive = true) →
      password ≠ "" →
      (createToken st email password).1 = 200 ∧ (createToken st email password).2.isSome) ∧
    ((∀ a ∈ st.accounts, a.email = email → a.password ≠ password) →
      createToken st email password = (400, none)) ∧
    (password = "" → createToken st email password = (400, none)) := by
  refine ⟨fun hm hne => ?_, fun hbad => ?_, fun hblank => by simp [createToken, hblank]⟩
  · have hs : (st.accounts.find?
        (fun a => a.email == email && a.password == password && a.isActive)).isSome := by
      rw [List.find?_isSome]
      obtain ⟨a, ha, h1, h2, h3⟩ := hm
      exact ⟨a, ha, by simp [h1, h2, h3]⟩
    cases hf : st.accounts.find?
        (fun a => a.email == email && a.password == password && a.isActive) with
    | none => rw [hf] at hs; cases hs
    | some a => constructor <;> simp [createToken, hne, hf]
  · have hf : st.accounts.find?
        (fun a => a.email == email && a.password == password && a.isActive) = none := by
      rw [List.find?_eq_none]
      intro a ha
      simp only [Bool.and_eq_true, beq_iff_eq, not_and]
      rintro ⟨h1, h2⟩
      exact absurd h2 (hbad a ha h1)
    by_cases hb : password = ""
    · simp [createToken, hb]
    · simp [createToken, hb, hf]

/-- Witness for C8 at the sample store: the stored credentials of
account 1 yield 200 with a token; a wrong and a blank password yield
400 without one. -/
theorem token_endpoint_matches_w :
    (∃ a ∈ sampleStore.accounts,
      a.email = "test@example.com" ∧ a.password = "testpassword123" ∧ a.isActive = true) ∧
    ("testpassword123" ≠ "") ∧
    ((createToken sampleStore "test@example.com" "testpassword123").1 = 200 ∧
      (createToken sampleStore "test@example.com" "testpassword123").2.isSome) ∧
    (∀ a ∈ sampleStore.accounts, a.email = "test@example.com" → a.password ≠ "wrong-pass") ∧
    createToken sampleStore "test@example.com" "wrong-pass" = (400, none) ∧
    createToken sampleStore "test@example.com" "" = (400, none) :=
  ⟨by decide, by decide,
    (token_endpoint_matches sampleStore "test@example.com" "testpassword123").1
      (by decide) (by decide),
    by decide,
    (token_endpoint_matches sampleStore "test@example.com" "wrong-pass").2.1 (by decide),
    (token_endpoint_matches sampleStore "test@example.com" "").2.2 rfl⟩

/-- C4: a delete or partial-update request on a recipe owned by a
different account answers 404 and leaves the store — in particular the
targeted row — unchanged and present. -/
theorem foreign_recipe_not_found (st : Store) (uid rid : Nat) (q : RecipePatch)
    (r : Recipe) (hwf : StoreWF st) (hr : r ∈ st.recipes) (hid : r.id = rid)
    (hown : r.userId ≠ uid) :
    recipeDelete st uid rid = (404, st) ∧ recipePatch st uid rid q = (404, st) ∧
    r ∈ (recipeDelete st uid rid).2.recipes ∧ r ∈ (recipePatch st uid rid q).2.recipes := by
  have hf : st.recipes.find? (fun x => x.id == rid && x.userId == uid) = none := by
    rw [List.find?_eq_none]
    intro x hx
    simp only [Bool.and_eq_true, beq_iff_eq, not_and]
    intro h1 h2
    have hxr : x = r :=
      List.inj_on_of_nodup_map hwf.2.2.1 hx hr (by rw [h1, hid])
    exact hown (hxr ▸ h2)
  have hd : recipeDelete st uid rid = (404, st) := by rw [recipeDelete, hf]
  have hp : recipePatch st uid rid q = (404, st) := by rw [recipePatch, hf]
  exact ⟨hd, hp, by rw [hd]; exact hr, by rw [hp]; exact hr⟩

/-- Witness for C4: account 1 targeting account 2's recipe (id 4) gets
404 from both delete and update, and the recipe stays present. -/
theorem foreign_recipe_not_found_w :
    StoreWF sampleStore ∧ recipeB ∈ sampleStore.recipes ∧ recipeB.id = 4 ∧
    recipeB.userId ≠ 1 ∧
    (recipeDelete sampleStore 1 4 = (404, sampleStore) ∧
      recipePatch sampleStore 1 4 ⟨none, none, none, none, none, none, none, none⟩ =
        (404, sampleStore) ∧
      recipeB ∈ (recipeDelete sampleStore 1 4).2.recipes ∧
      recipeB ∈ (recipePatch sampleStore 1 4
        ⟨none, none, none, none, none, none, none, none⟩).2.recipes) :=
  ⟨by decide, by decide, by decide, by decide,
    foreign_recipe_not_found sampleStore 1 4 ⟨none, none, none, none, none, none, none, none⟩
      recipeB (by decide) (by decide) (by decide) (by decide)⟩

/-- C5: a partial update changes exactly the supplied fields — each
scalar field of the updated row is the payload value when supplied and
the previous value otherwise, an unsupplied tags/ingredients list is
kept, and the owner is unchanged whatever the payload's owner field
holds (the operation never reads it). -/
theorem patch_changes_only_supplied_fields (st : Store) (uid rid : Nat)
    (p : RecipePatch) (r : Recipe)
    (h : st.recipes.find? (fun x => x.id == rid && x.userId == uid) = some r) :
    (recipePatch st uid rid p).1 = 200 ∧
    ∃ r2 ∈ (recipePatch st uid rid p).2.recipes,
      r2.id = r.id ∧ r2.userId = r.userId ∧
      r2.title = p.title.getD r.title ∧
      r2.timeMinutes = p.timeMinutes.getD r.timeMinutes ∧
      r2.price = p.price.getD r.price ∧
      r2.description = p.description.getD r.description ∧
      r2.link = p.link.getD r.link ∧
      (p.tags = none → r2.tagIds = r.tagIds) ∧
      (p.ingredients = none → r2.ingredientIds = r.ingredientIds) := by
  have hmem := List.mem_of_find?_eq_some h
  constructor
  · simp [recipePatch, h]
  · simp only [recipePatch, h]
    refine ⟨_, List.mem_map_of_mem _ hmem, ?_⟩
    rw [if_pos rfl]
    refine ⟨rfl, rfl, rfl, rfl, rfl, rfl, rfl, ?_, ?_⟩
    · intro ht
      simp [ht, setLinks]
    · intro hi
      simp [hi, setLinks]

/-- A sample partial-update payload: a new title, an attempted owner
change to account 2, everything else unsupplied. -/
def samplePatch : RecipePatch :=
  ⟨some "New Recipe Title", none, none, none, none, none, none, some 2⟩

/-- Witness for C5: patching recipe 3 of account 1 with `samplePatch`
keeps every unsupplied field and the owner. -/
theorem patch_changes_only_supplied_fields_w :
    (sampleStore.recipes.find? (fun x => x.id == 3 && x.userId == 1) = some recipeA) ∧
    ((recipePatch sampleStore 1 3 samplePatch).1 = 200 ∧
      ∃ r2 ∈ (recipePatch sampleStore 1 3 samplePatch).2.recipes,
        r2.id = recipeA.id ∧ r2.userId = recipeA.userId ∧
        r2.title = samplePatch.title.getD recipeA.title ∧
        r2.timeMinutes = samplePatch.timeMinutes.getD recipeA.timeMinutes ∧
        r2.price = samplePatch.price.getD recipeA.price ∧
        r2.description = samplePatch.description.getD recipeA.description ∧
        r2.link = samplePatch.link.getD recipeA.link ∧
        (samplePatch.tags = none → r2.tagIds = recipeA.tagIds) ∧
        (samplePatch.ingredients = none → r2.ingredientIds = recipeA.ingredientIds)) :=
  ⟨by decide,
    patch_changes_only_supplied_fields sampleStore 1 3 samplePatch recipeA (by decide)⟩

/-- C2: for every tag or ingredient name supplied in a recipe create
or partial update, the row count of that (account, name) pair after
the write is 1 when no such row existed and unchanged otherwise (in
particular it stays at one), and a row with that pair ends up attached
to the written recipe. -/
theorem get_or_create_reuses_existing (st : Store) (uid : Nat) (name : String) :
    (∀ p : RecipeInput, name ∈ p.tags →
      countName (recipeCreate st uid p).2.1.tags uid name =
        (if countName st.tags uid name = 0 then 1 else countName st.tags uid name) ∧
      ∃ t ∈ (recipeCreate st uid p).2.1.tags, t.userId = uid ∧ t.name = name ∧
        ∃ rn ∈ (recipeCreate st uid p).2.1.recipes,
          rn.id = (recipeCreate st uid p).2.2 ∧ t.id ∈ rn.tagIds) ∧
    (∀ p : RecipeInput, name ∈ p.ingredients →
      countName (recipeCreate st uid p).2.1.ingredients uid name =
        (if countName st.ingredients uid name = 0 then 1
          else countName st.ingredients uid name) ∧
      ∃ t ∈ (recipeCreate st uid p).2.1.ingredients, t.userId = uid ∧ t.name = name ∧
        ∃ rn ∈ (recipeCreate st uid p).2.1.recipes,
          rn.id = (recipeCreate st uid p).2.2 ∧ t.id ∈ rn.ingredientIds) ∧
    (∀ (rid : Nat) (q : RecipePatch) (names : List String) (r : Recipe),
      st.recipes.find? (fun x => x.id == rid && x.userId == uid) = some r →
      q.tags = some names → name ∈ names →
      countName (recipePatch st uid rid q).2.tags uid name =
        (if countName st.tags uid name = 0 then 1 else countName st.tags uid name) ∧
      ∃ t ∈ (recipePatch st uid rid q).2.tags, t.userId = uid ∧ t.name = name ∧
        ∃ rn ∈ (recipePatch st uid rid q).2.recipes, rn.id = rid ∧ t.id ∈ rn.tagIds) ∧
    (∀ (rid : Nat) (q : RecipePatch) (names : List String) (r : Recipe),
      st.recipes.find? (fun x => x.id == rid && x.userId == uid) = some r →
      q.ingredients = some names → name ∈ names →
      countName (recipePatch st uid rid q).2.ingredients uid name =
        (if countName st.ingredients uid name = 0 then 1
          else countName st.ingredients uid name) ∧
      ∃ t ∈ (recipePatch st uid rid q).2.ingredients, t.userId = uid ∧ t.name = name ∧
        ∃ rn ∈ (recipePatch st uid rid q).2.recipes,
          rn.id = rid ∧ t.id ∈ rn.ingredientIds) := by
  refine ⟨fun p hp => ⟨?_, ?_⟩, fun p hp => ⟨?_, ?_⟩,
    fun rid q names r hfind hq hn => ⟨?_, ?_⟩,
    fun rid q names r hfind hq hn => ⟨?_, ?_⟩⟩
  · simp only [recipeCreate]
    rw [countName_getOrCreateRows]
    simp [hp]
  · obtain ⟨t, ht, h1, h2, h3⟩ := getOrCreateRows_attach st.tags st.nextId uid p.tags hp
    refine ⟨t, by simpa only [recipeCreate] using ht, h1, h2, ?_⟩
    simp only [recipeCreate]
    exact ⟨_, List.mem_append_right _ (List.mem_singleton_self _), rfl,
      List.mem_dedup.mpr h3⟩
  · simp only [recipeCreate]
    rw [countName_getOrCreateRows]
    simp [hp]
  · obtain ⟨t, ht, h1, h2, h3⟩ := getOrCreateRows_attach st.ingredients
      (getOrCreateRows st.tags st.nextId uid p.tags).next uid p.ingredients hp
    refine ⟨t, by simpa only [recipeCreate] using ht, h1, h2, ?_⟩
    simp only [recipeCreate]
    exact ⟨_, List.mem_append_right _ (List.mem_singleton_self _), rfl,
      List.mem_dedup.mpr h3⟩
  · simp only [recipePatch, hfind, hq, setLinks]
    rw [countName_getOrCreateRows]
    simp [hn]
  · obtain ⟨t, ht, h1, h2, h3⟩ := getOrCreateRows_attach st.tags st.nextId uid names hn
    have hmem := List.mem_of_find?_eq_some hfind
    have hidr : r.id = rid := by
      have hps := List.find?_some hfind
      simp only [Bool.and_eq_true, beq_iff_eq] at hps
      exact hps.1
    refine ⟨t, ?_, h1, h2, ?_⟩
    · simp only [recipePatch, hfind, hq, setLinks]
      exact ht
    · simp only [recipePatch, hfind]
      refine ⟨_, List.mem_map_of_mem _ hmem, ?_⟩
      rw [if_pos rfl]
      refine ⟨hidr, ?_⟩
      rw [hq]
      simp only [setLinks]
      exact List.mem_dedup.mpr h3
  · simp only [recipePatch, hfind, hq, setLinks]
    rw [countName_getOrCreateRows]
    simp [hn]
  · obtain ⟨t, ht, h1, h2, h3⟩ := getOrCreateRows_attach st.ingredients
      (setLinks st.tags st.nextId uid r.tagIds q.tags).next uid names hn
    have hmem := List.mem_of_find?_eq_some hfind
    have hidr : r.id = rid := by
      have hps := List.find?_some hfind
      simp only [Bool.and_eq_true, beq_iff_eq] at hps
      exact hps.1
    refine ⟨t, ?_, h1, h2, ?_⟩
    · simp only [recipePatch, hfind, hq, setLinks]
      exact ht
    · simp only [recipePatch, hfind]
      refine ⟨_, List.mem_map_of_mem _ hmem, ?_⟩
      rw [if_pos rfl]
      refine ⟨hidr, ?_⟩
      rw [hq]
      simp only [setLinks]
      exact List.mem_dedup.mpr h3

/-- A sample partial-update payload replacing the tag set by the
existing name `Taco` and the ingredient set by the existing name
`Lemon`. -/
def sampleQ : RecipePatch :=
  ⟨none, none, none, none, none, some ["Taco"], some ["Lemon"], none⟩

/-- Witness for C2: creating `sampleInput` and patching recipe 3 with
`sampleQ` reuse the existing `Taco` tag and `Lemon` ingredient of
account 1 and attach them. -/
theorem get_or_create_reuses_existing_w :
    ("Taco" ∈ sampleInput.tags) ∧
    ("Lemon" ∈ sampleInput.ingredients) ∧
    (sampleStore.recipes.find? (fun x => x.id == 3 && x.userId == 1) = some recipeA) ∧
    (sampleQ.tags = some ["Taco"]) ∧
    (sampleQ.ingredients = some ["Lemon"]) ∧
    (countName (recipeCreate sampleStore 1 sampleInput).2.1.tags 1 "Taco" =
        (if countName sampleStore.tags 1 "Taco" = 0 then 1
          else countName sampleStore.tags 1 "Taco") ∧
      ∃ t ∈ (recipeCreate sampleStore 1 sampleInput).2.1.tags,
        t.userId = 1 ∧ t.name = "Taco" ∧
        ∃ rn ∈ (recipeCreate sampleStore 1 sampleInput).2.1.recipes,
          rn.id = (recipeCreate sampleStore 1 sampleInput).2.2 ∧ t.id ∈ rn.tagIds) ∧
    (countName (recipeCreate sampleStore 1 sampleInput).2.1.ingredients 1 "Lemon" =
        (if countName sampleStore.ingredients 1 "Lemon" = 0 then 1
          else countName sampleStore.ingredients 1 "Lemon") ∧
      ∃ t ∈ (recipeCreate sampleStore 1 sampleInput).2.1.ingredients,
        t.userId = 1 ∧ t.name = "Lemon" ∧
        ∃ rn ∈ (recipeCreate sampleStore 1 sampleInput).2.1.recipes,
          rn.id = (recipeCreate sampleStore 1 sampleInput).2.2 ∧
            t.id ∈ rn.ingredientIds) ∧
    (countName (recipePatch sampleStore 1 3 sampleQ).2.tags 1 "Taco" =
        (if countName sampleStore.tags 1 "Taco" = 0 then 1
          else countName sampleStore.tags 1 "Taco") ∧
      ∃ t ∈ (recipePatch sampleStore 1 3 sampleQ).2.tags,
        t.userId = 1 ∧ t.name = "Taco" ∧
        ∃ rn ∈ (recipePatch sampleStore 1 3 sampleQ).2.recipes,
          rn.id = 3 ∧ t.id ∈ rn.tagIds) ∧
    (countName (recipePatch sampleStore 1 3 sampleQ).2.ingredients 1 "Lemon" =
        (if countName sampleStore.ingredients 1 "Lemon" = 0 then 1
          else countName sampleStore.ingredients 1 "Lemon") ∧
      ∃ t ∈ (recipePatch sampleStore 1 3 sampleQ).2.ingredients,
        t.userId = 1 ∧ t.name = "Lemon" ∧
        ∃ rn ∈ (recipePatch sampleStore 1 3 sampleQ).2.recipes,
          rn.id = 3 ∧ t.id ∈ rn.ingredientIds) :=
  ⟨by decide, by decide, by decide, rfl, rfl,
    (get_or_create_reuses_existing sampleStore 1 "Taco").1 sampleInput (by decide),
    (get_or_create_reuses_existing sampleStore 1 "Lemon").2.1 sampleInput (by decide),
    (get_or_create_reuses_existing sampleStore 1 "Taco").2.2.1 3 sampleQ ["Taco"]
      recipeA (by decide) rfl (by decide),
    (get_or_create_reuses_existing sampleStore 1 "Lemon").2.2.2 3 sampleQ ["Lemon"]
      recipeA (by decide) rfl (by decide)⟩

/-- C3: when a partial update supplies a tags (or ingredients) list,
the updated recipe's attached set is exactly the supplied name set — a
row of the account is attached afterwards precisely when its name was
supplied, so rows not named are detached, and the empty list leaves no
attached rows. -/
theorem update_replaces_link_sets (st : Store) (uid rid : Nat) (q : RecipePatch)
    (r : Recipe) (tnames inames : List String) (hwf : StoreWF st)
    (h : st.recipes.find? (fun x => x.id == rid && x.userId == uid) = some r) :
    ∃ r2 ∈ (recipePatch st uid rid q).2.recipes, r2.id = rid ∧
      (q.tags = some tnames →
        (∀ name, (∃ t ∈ (recipePatch st uid rid q).2.tags,
            t.userId = uid ∧ t.name = name ∧ t.id ∈ r2.tagIds) ↔ name ∈ tnames) ∧
        (tnames = [] → r2.tagIds = [])) ∧
      (q.ingredients = some inames →
        (∀ name, (∃ t ∈ (recipePatch st uid rid q).2.ingredients,
            t.userId = uid ∧ t.name = name ∧ t.id ∈ r2.ingredientIds) ↔
          name ∈ inames) ∧
        (inames = [] → r2.ingredientIds = [])) := by
  have hmem := List.mem_of_find?_eq_some h
  have hidr : r.id = rid := by
    have hps := List.find?_some h
    simp only [Bool.and_eq_true, beq_iff_eq] at hps
    exact hps.1
  simp only [recipePatch, h]
  refine ⟨_, List.mem_map_of_mem _ hmem, ?_⟩
  rw [if_pos rfl]
  refine ⟨hidr, ?_, ?_⟩
  · intro hq
    rw [hq]
    simp only [setLinks]
    have hwft := getOrCreateRows_wf uid tnames hwf.1
    constructor
    · intro name
      constructor
      · rintro ⟨t, ht, hu, hn, hi⟩
        rw [List.mem_dedup] at hi
        obtain ⟨t2, ht2, hid2, _, hn2⟩ :=
          getOrCreateRows_ids st.tags st.nextId uid tnames hi
        have heq : t = t2 :=
          List.inj_on_of_nodup_map hwft.1 ht ht2 (by rw [hid2])
        rw [← hn, heq]
        exact hn2
      · intro hnm
        obtain ⟨t, ht, h1, h2, h3⟩ :=
          getOrCreateRows_attach st.tags st.nextId uid tnames hnm
        exact ⟨t, ht, h1, h2, List.mem_dedup.mpr h3⟩
    · intro hempty
      subst hempty
      simp [getOrCreateRows]
  · intro hq
    rw [hq]
    simp only [setLinks]
    have hwfbase : rowsWF st.ingredients
        (setLinks st.tags st.nextId uid r.tagIds q.tags).next :=
      rowsWF_mono hwf.2.1 (setLinks_next_mono st.tags st.nextId uid r.tagIds q.tags)
    have hwfi := getOrCreateRows_wf uid inames hwfbase
    constructor
    · intro name
      constructor
      · rintro ⟨t, ht, hu, hn, hi⟩
        rw [List.mem_dedup] at hi
        obtain ⟨t2, ht2, hid2, _, hn2⟩ :=
          getOrCreateRows_ids st.ingredients
            (setLinks st.tags st.nextId uid r.tagIds q.tags).next uid inames hi
        have heq : t = t2 :=
          List.inj_on_of_nodup_map hwfi.1 ht ht2 (by rw [hid2])
        rw [← hn, heq]
        exact hn2
      · intro hnm
        obtain ⟨t, ht, h1, h2, h3⟩ :=
          getOrCreateRows_attach st.ingredients
            (setLinks st.tags st.nextId uid r.tagIds q.tags).next uid inames hnm
        exact ⟨t, ht, h1, h2, List.mem_dedup.mpr h3⟩
    · intro hempty
      subst hempty
      simp [getOrCreateRows]

/-- A sample partial-update payload assigning the new tag name `Lunch`
and clearing the ingredient list. -/
def sampleQ3 : RecipePatch :=
  ⟨none, none, none, none, none, some ["Lunch"], some [], none⟩

/-- Witness for C3: patching recipe 3 of account 1 with `sampleQ3`
leaves exactly a `Lunch` tag attached and no ingredients. -/
theorem update_replaces_link_sets_w :
    StoreWF sampleStore ∧
    (sampleStore.recipes.find? (fun x => x.id == 3 && x.userId == 1) = some recipeA) ∧
    (sampleQ3.tags = some ["Lunch"]) ∧ (sampleQ3.ingredients = some []) ∧
    (∃ r2 ∈ (recipePatch sampleStore 1 3 sampleQ3).2.recipes, r2.id = 3 ∧
      (sampleQ3.tags = some ["Lunch"] →
        (∀ name, (∃ t ∈ (recipePatch sampleStore 1 3 sampleQ3).2.tags,
            t.userId = 1 ∧ t.name = name ∧ t.id ∈ r2.tagIds) ↔ name ∈ ["Lunch"]) ∧
        ((["Lunch"] : List String) = [] → r2.tagIds = [])) ∧
      (sampleQ3.ingredients = some [] →
        (∀ name, (∃ t ∈ (recipePatch sampleStore 1 3 sampleQ3).2.ingredients,
            t.userId = 1 ∧ t.name = name ∧ t.id ∈ r2.ingredientIds) ↔
          name ∈ ([] : List String)) ∧
        (([] : List String) = [] → r2.ingredientIds = []))) :=
  ⟨by decide, by decide, rfl, rfl,
    update_replaces_link_sets sampleStore 1 3 sampleQ3 recipeA ["Lunch"] []
      (by decide) (by decide)⟩

end RecipeApp
